import Mathlib

/-!
Verification of the Doctor document-conversion service data model.

This file is a shallow embedding, in Lean 4, of the pure logic of the
`backend/app/models` package (`enums.py`, `models.py`, `validators.py`).
Python dictionaries with `.get(key, default)` are embedded as association
lists with `List.lookup` plus `Option.getD`; Python sets with membership
tests become list membership; Python strings are Lean `String`s
(`str.lower()` is embedded as ASCII lowercasing, which agrees with Python
on every ASCII string — all strings compared against in this code base are
ASCII); byte strings are `List Nat` with entries below 256.  File-system
and network effects are passed in explicitly (a file's readable content is
an `Option (List Nat)`, `none` standing for an I/O error raised while
reading; clock reads are explicit `now` parameters).
-/

namespace Doctor

/-- Python `str.lower()` restricted to ASCII case mapping (`Char.toLower`
maps `A`–`Z` to `a`–`z` and fixes everything else, which matches Python on
all ASCII input). -/
def pyLower (s : String) : String := String.mk (s.data.map Char.toLower)

/-- `DocumentFormat` from `enums.py`: the five enum members. -/
inductive DocumentFormat where
  | markdown
  | md
  | pdf
  | html
  | htm
deriving DecidableEq, Repr, Fintype

namespace DocumentFormat

/-- The `.value` of each `DocumentFormat` member. -/
def value : DocumentFormat → String
  | markdown => "markdown"
  | md       => "md"
  | pdf      => "pdf"
  | html     => "html"
  | htm      => "htm"

/-- The `format_map` dictionary inside `DocumentFormat.normalize`. -/
def format_map : List (String × DocumentFormat) :=
  [("markdown", markdown), ("md", markdown), ("pdf", pdf),
   ("html", html), ("htm", html)]

/-- `DocumentFormat.normalize`: look the lowercased string up in
`format_map`, defaulting to `MARKDOWN` (`format_map.get(format_str.lower(),
cls.MARKDOWN)`). -/
def normalize (format_str : String) : DocumentFormat :=
  (format_map.lookup (pyLower format_str)).getD markdown

end DocumentFormat

/-- `TaskStatus` from `enums.py`. -/
inductive TaskStatus where
  | created
  | queued
  | waiting
  | processing
  | success
  | failed
  | cancelled
  | expired
deriving DecidableEq, Repr, Fintype

namespace TaskStatus

/-- `TaskStatus.is_final`: membership in `{SUCCESS, FAILED, CANCELLED,
EXPIRED}`. -/
def is_final (s : TaskStatus) : Bool :=
  s = success ∨ s = failed ∨ s = cancelled ∨ s = expired

/-- `TaskStatus.is_active`. -/
def is_active (s : TaskStatus) : Bool := s = processing

/-- `TaskStatus.can_cancel`: membership in `{CREATED, QUEUED, WAITING,
PROCESSING}`. -/
def can_cancel (s : TaskStatus) : Bool :=
  s = created ∨ s = queued ∨ s = waiting ∨ s = processing

end TaskStatus

/-- `ErrorCode` from `enums.py`: the fifteen enum members. -/
inductive ErrorCode where
  | file_too_large
  | file_not_found
  | invalid_file_format
  | file_corrupted
  | task_not_found
  | task_expired
  | task_limit_exceeded
  | task_timeout
  | conversion_failed
  | unsupported_conversion
  | invalid_options
  | storage_error
  | memory_limit
  | internal_error
  | service_unavailable
deriving DecidableEq, Repr, Fintype

namespace ErrorCode

/-- The `status_map` dictionary inside `ErrorCode.to_http_status`
(as a function into `Option`, mirroring dictionary lookup). -/
def status_map : ErrorCode → Option Nat
  | file_too_large         => some 413
  | file_not_found         => some 404
  | invalid_file_format    => some 400
  | file_corrupted         => some 422
  | task_not_found         => some 404
  | task_expired           => some 410
  | task_limit_exceeded    => some 429
  | task_timeout           => some 408
  | conversion_failed      => some 500
  | unsupported_conversion => some 400
  | invalid_options        => some 400
  | storage_error          => some 507
  | memory_limit           => some 507
  | internal_error         => some 500
  | service_unavailable    => some 503

/-- `ErrorCode.to_http_status`: `status_map.get(self, 500)`. -/
def to_http_status (e : ErrorCode) : Nat := (status_map e).getD 500

end ErrorCode

/-- `UploadSource` from `enums.py`. -/
inductive UploadSource where
  | file
  | text
  | url
  | api
deriving DecidableEq, Repr, Fintype

namespace Constants

/-- `Constants.MAX_FILE_SIZE` (the source comments it `# 500 MB`;
the value is 500 * 1024 * 1024 bytes). -/
def MAX_FILE_SIZE : Int := 524288000

/-- `Constants.MAX_TEXT_SIZE` (`# 10 MB`). -/
def MAX_TEXT_SIZE : Int := 10485760

/-- `Constants.MAX_URL_SIZE` (`# 100 MB`). -/
def MAX_URL_SIZE : Int := 104857600

/-- `Constants.CONVERSION_MATRIX` as dictionary lookup: keys are the three
canonical formats, the rest of the enum is absent. -/
def CONVERSION_MATRIX : DocumentFormat → Option (List DocumentFormat)
  | .markdown => some [.pdf, .html]
  | .pdf      => some [.markdown, .html]
  | .html     => some [.markdown, .pdf]
  | _         => none

/-- `Constants.can_convert`: normalize both formats through their string
values; equal normal forms are rejected; otherwise a membership test in
`CONVERSION_MATRIX.get(source_norm, [])`. -/
def can_convert (source target : DocumentFormat) : Bool :=
  let source_norm := DocumentFormat.normalize source.value
  let target_norm := DocumentFormat.normalize target.value
  if source_norm = target_norm then false
  else target_norm ∈ (CONVERSION_MATRIX source_norm).getD []

end Constants

namespace FileValidator

/-- The `max_sizes` dictionary inside `FileValidator.validate_file_size`. -/
def max_sizes : List (String × Int) :=
  [("file", Constants.MAX_FILE_SIZE),
   ("text", Constants.MAX_TEXT_SIZE),
   ("url",  Constants.MAX_URL_SIZE)]

/-- `FileValidator.validate_file_size`: non-positive sizes are rejected;
otherwise the size is compared against
`max_sizes.get(source, Constants.MAX_FILE_SIZE)`. -/
def validate_file_size (size : Int) (source : String) : Bool × Option String :=
  if size ≤ 0 then (false, some "File size must be positive")
  else
    let max_size := (max_sizes.lookup source).getD Constants.MAX_FILE_SIZE
    if size > max_size then
      (false, some s!"Size {size} bytes exceeds maximum of {max_size} bytes")
    else (true, none)

/-- One byte of a file: a natural number below 256. -/
def isByte (b : Nat) : Bool := b < 256

/-- Decodability of a byte string under Latin-1 (`header.decode('latin-1')`
succeeds exactly when every entry is a byte: Latin-1 assigns a code point
to every value 0–255, so genuine byte strings always decode). -/
def latin1Decodable (header : List Nat) : Bool := header.all isByte

/-- A UTF-8 continuation byte (`0x80`–`0xBF`). -/
def isCont (b : Nat) : Bool := 0x80 ≤ b && b ≤ 0xBF

/-- Decodability of a byte string under strict UTF-8
(`header.decode('utf-8')` succeeds): the standard well-formedness check,
rejecting overlong encodings, surrogates, code points above `U+10FFFF`,
stray continuation bytes and truncated sequences. -/
def utf8Decodable : List Nat → Bool
  | [] => true
  | b :: rest =>
    if b ≤ 0x7F then utf8Decodable rest
    else if 0xC2 ≤ b && b ≤ 0xDF then
      match rest with
      | c :: r => isCont c && utf8Decodable r
      | [] => false
    else if b == 0xE0 then
      match rest with
      | c1 :: c2 :: r => (0xA0 ≤ c1 && c1 ≤ 0xBF) && isCont c2 && utf8Decodable r
      | _ => false
    else if (0xE1 ≤ b && b ≤ 0xEC) || b == 0xEE || b == 0xEF then
      match rest with
      | c1 :: c2 :: r => isCont c1 && isCont c2 && utf8Decodable r
      | _ => false
    else if b == 0xED then
      match rest with
      | c1 :: c2 :: r => (0x80 ≤ c1 && c1 ≤ 0x9F) && isCont c2 && utf8Decodable r
      | _ => false
    else if b == 0xF0 then
      match rest with
      | c1 :: c2 :: c3 :: r =>
        (0x90 ≤ c1 && c1 ≤ 0xBF) && isCont c2 && isCont c3 && utf8Decodable r
      | _ => false
    else if 0xF1 ≤ b && b ≤ 0xF3 then
      match rest with
      | c1 :: c2 :: c3 :: r => isCont c1 && isCont c2 && isCont c3 && utf8Decodable r
      | _ => false
    else if b == 0xF4 then
      match rest with
      | c1 :: c2 :: c3 :: r =>
        (0x80 ≤ c1 && c1 ≤ 0x8F) && isCont c2 && isCont c3 && utf8Decodable r
      | _ => false
    else false

/-- The `%PDF` signature bytes. -/
def pdfSignature : List Nat := [0x25, 0x50, 0x44, 0x46]

/-- `bytes.startswith` on byte strings. -/
def bytesStartWith (header sig : List Nat) : Bool := sig.isPrefixOf header

/-- `FileValidator.quick_format_check`.  The file system is passed in
explicitly: `fileExists` is `file_path.exists()`, and `content` is the
file's byte content, with `none` standing for an exception raised while
opening or reading (the `except Exception` branch).  The first 1 KB is
`content.take 1024`. -/
def quick_format_check (fileExists : Bool) (content : Option (List Nat))
    (expected_format : DocumentFormat) : Bool × Option String :=
  if !fileExists then (false, some "File does not exist")
  else
    match content with
    | none => (true, none)
    | some bytes =>
      let header := bytes.take 1024
      if expected_format = .pdf then
        if !bytesStartWith header pdfSignature then
          (false, some "File doesn't appear to be a PDF (missing %PDF header)")
        else (true, none)
      else if expected_format = .html || expected_format = .htm ||
              expected_format = .markdown || expected_format = .md then
        if header.contains 0 then
          (false, some "File appears to be binary, not text")
        else if !utf8Decodable header then
          if !latin1Decodable header then
            (false, some "File is not readable as text")
          else (true, none)
        else (true, none)
      else (true, none)

end FileValidator

namespace TextValidator

/-- Number of bytes of the UTF-8 encoding of one code point. -/
def charUtf8Len (c : Char) : Nat :=
  if c.val < 0x80 then 1
  else if c.val < 0x800 then 2
  else if c.val < 0x10000 then 3
  else 4

/-- `len(text.encode('utf-8'))`. -/
def utf8Len (s : String) : Nat :=
  s.data.foldl (fun n c => n + charUtf8Len c) 0

/-- `TextValidator.validate_text_input`.  `max_size` is `Option Int`
(`none` is Python's default `None`); the `if max_size:` truthiness test is
false exactly on `None` and `0`. -/
def validate_text_input (text : String) (max_size : Option Int) :
    Bool × Option String :=
  if text = "" then (false, some "Text cannot be empty")
  else if text.data.contains (Char.ofNat 0) then
    (false, some "Text contains null bytes")
  else if (match max_size with | none => false | some m => m ≠ 0 : Bool) then
    let n : Int := utf8Len text
    let m := max_size.getD 0
    if n > m then
      (false, some s!"Text size {n} bytes exceeds maximum of {m} bytes")
    else (true, none)
  else (true, none)

end TextValidator

/-- The `Task` pydantic model (`models.py`), restricted to the fields its
mutators and the claims touch.  `retry_count` is an `Int` so that the
declared field bound `ge=0` is a real constraint.  Timestamps are abstract
`Nat` instants supplied by the caller. -/
structure Task where
  status : TaskStatus
  source_format : DocumentFormat
  target_format : DocumentFormat
  output_file_id : Option Nat
  progress : Int
  message : String
  error_code : Option ErrorCode
  error_details : Option String
  started_at : Option Nat
  completed_at : Option Nat
  processing_time : Option Int
  retry_count : Int
deriving DecidableEq, Repr

namespace Task

/-- Pydantic validation at `Task` construction: field constraints
`progress: ge=0, le=100` and `retry_count: ge=0, le=3`, plus the
`validate_conversion` field validator (`Constants.can_convert` must accept
the pair).  A dict of raw field values either validates into a `Task` or
is rejected. -/
def construct (status : TaskStatus) (source_format target_format : DocumentFormat)
    (output_file_id : Option Nat) (progress : Int) (message : String)
    (error_code : Option ErrorCode) (error_details : Option String)
    (started_at completed_at : Option Nat) (processing_time : Option Int)
    (retry_count : Int) : Option Task :=
  if 0 ≤ progress ∧ progress ≤ 100 ∧ 0 ≤ retry_count ∧ retry_count ≤ 3 ∧
     Constants.can_convert source_format target_format = true then
    some ⟨status, source_format, target_format, output_file_id, progress,
          message, error_code, error_details, started_at, completed_at,
          processing_time, retry_count⟩
  else none

/-- `Task.is_complete`. -/
def is_complete (t : Task) : Bool := t.status.is_final

/-- `Task.can_retry`: `retry_count < 3 and status == FAILED`. -/
def can_retry (t : Task) : Bool :=
  t.retry_count < 3 ∧ t.status = TaskStatus.failed

/-- `Task.set_processing` (with the `datetime.utcnow()` read passed in as
`now`). -/
def set_processing (t : Task) (now : Nat) : Task :=
  { t with status := TaskStatus.processing,
           started_at := some now,
           message := "Processing conversion" }

/-- `Task.set_completed`. -/
def set_completed (t : Task) (output_file_id : Nat) (now : Nat) : Task :=
  let t1 := { t with status := TaskStatus.success,
                     output_file_id := some output_file_id,
                     completed_at := some now,
                     progress := 100,
                     message := "Conversion completed successfully" }
  match t.started_at with
  | some s => { t1 with processing_time := some ((now : Int) - (s : Int)) }
  | none => t1

/-- `Task.set_failed`. -/
def set_failed (t : Task) (error_code : ErrorCode) (error_details : String)
    (now : Nat) : Task :=
  { t with status := TaskStatus.failed,
           error_code := some error_code,
           error_details := some error_details,
           completed_at := some now,
           message := "Conversion failed: " ++ error_details }

end Task

/-! ### A model of `pathlib.PurePosixPath`, as used by
`FileValidator.sanitize_path`.

On the POSIX flavour, `Path(s)` splits `s` on `/`, drops empty and `.`
pieces to obtain the tail components, and records a root (`/`, or `//` for
a path starting with exactly two slashes).  `parts` is the root (if any)
followed by the components; `name` is the last component (or `''` when
there is none); `str(p)` joins root and components with `/`, giving `.`
for a rootless path with no components; `is_absolute()` is having a root.
All verified against CPython 3.11 `pathlib`. -/

/-- Split a character list on a separator character, keeping empty pieces
(Python `str.split(sep)` for a one-character separator). -/
def splitOnChar (sep : Char) : List Char → List (List Char)
  | [] => [[]]
  | c :: rest =>
    if c = sep then [] :: splitOnChar sep rest
    else (c :: (splitOnChar sep rest).headI) :: (splitOnChar sep rest).tail

/-- Join pieces with a separator character (`sep.join(pieces)`). -/
def joinSep (sep : Char) : List (List Char) → List Char
  | [] => []
  | [p] => p
  | p :: ps => p ++ sep :: joinSep sep ps

namespace PyPath

/-- Split a character list on `/`, keeping empty pieces (the raw split
underlying `pathlib`'s parsing). -/
def splitSlash (l : List Char) : List (List Char) := splitOnChar '/' l

/-- The tail components of `Path(s)`: raw pieces that are neither empty
nor `.`. -/
def components (l : List Char) : List (List Char) :=
  (splitSlash l).filter (fun p => !(p == [] || p == ['.']))

/-- The root of `Path(s)`: `//` for exactly two leading slashes, `/` for
one or at least three, empty otherwise. -/
def pyRoot (l : List Char) : List Char :=
  if l.head? = some '/' then
    if l.tail.head? = some '/' ∧ l.tail.tail.head? ≠ some '/' then ['/', '/']
    else ['/']
  else []

/-- `Path(s).is_absolute()`: the path has a root. -/
def isAbsolute (l : List Char) : Bool := pyRoot l ≠ []

/-- `Path(s).name`: the last component, or empty. -/
def pyName (l : List Char) : List Char := (components l).getLast?.getD []

/-- `str(Path(s))`: root and components joined with `/`; `.` when both
are empty. -/
def pyStr (l : List Char) : List Char :=
  if pyRoot l = [] ∧ components l = [] then ['.']
  else pyRoot l ++ joinSep '/' (components l)

/-- `'..' in p.parts`: the root is a run of slashes, so this is membership
of `..` among the tail components. -/
def hasParentRef (l : List Char) : Bool := ['.', '.'] ∈ components l

/-- `str.replace('\\', '/')` — a single-character replacement, i.e. a
character map. -/
def replaceBackslash (l : List Char) : List Char :=
  l.map (fun c => if c = '\\' then '/' else c)

end PyPath

namespace FileValidator

open PyPath in
/-- `FileValidator.sanitize_path`: absolute paths and paths containing a
`..` component collapse to `p.name`; anything else becomes
`str(p).replace('\\', '/')`. -/
def sanitize_path (path : String) : String :=
  let l := path.data
  if isAbsolute l || hasParentRef l then String.mk (pyName l)
  else String.mk (replaceBackslash (pyStr l))

end FileValidator

/-! ### A model of `ipaddress.ip_address` and its classification
properties, as used by `URLValidator._is_private_ip`.

Addresses are parsed to their numeric value (32-bit for IPv4, 128-bit for
IPv6, as plain `Nat` with the range bounds maintained by parsing);
`is_private` / `is_loopback` / `is_reserved` are the network-membership
tests of CPython 3.11 `ipaddress` with its published network constants. -/

namespace PyIP

/-- An ASCII decimal digit. -/
def isDecDigit (c : Char) : Bool := '0' ≤ c ∧ c ≤ '9'

/-- An ASCII hexadecimal digit (`ipaddress._HEX_DIGITS`). -/
def isHexDig (c : Char) : Bool :=
  isDecDigit c ∨ ('a' ≤ c ∧ c ≤ 'f') ∨ ('A' ≤ c ∧ c ≤ 'F')

/-- Numeric value of a hexadecimal digit. -/
def hexVal (c : Char) : Nat :=
  if isDecDigit c then c.toNat - 48
  else if 'a' ≤ c ∧ c ≤ 'f' then c.toNat - 87
  else c.toNat - 55

/-- `IPv4Address._parse_octet`: ASCII digits only, at most three of them,
no leading zero (except `0` itself), value at most 255. -/
def parse_octet (s : List Char) : Option Nat :=
  if s = [] then none
  else if ¬ s.all isDecDigit then none
  else if 3 < s.length then none
  else if s ≠ ['0'] ∧ s.headI = '0' then none
  else
    let v := s.foldl (fun a c => a * 10 + (c.toNat - 48)) 0
    if 255 < v then none else some v

/-- `IEEE IPv4Address` parsing: exactly four dot-separated octets. -/
def parseIPv4 (s : List Char) : Option Nat :=
  match splitOnChar '.' s with
  | [a, b, c, d] => do
    pure ((((← parse_octet a) * 256 + (← parse_octet b)) * 256 +
            (← parse_octet c)) * 256 + (← parse_octet d))
  | _ => none

/-- `IPv6Address._parse_hextet`: ASCII hex digits only, between one and
four of them. -/
def parse_hextet (s : List Char) : Option Nat :=
  if ¬ s.all isHexDig then none
  else if 4 < s.length then none
  else if s = [] then none
  else some (s.foldl (fun a c => a * 16 + hexVal c) 0)

/-- The embedded-IPv4 step of `IPv6Address._ip_int_from_string`: when the
last colon-separated part contains a dot it must parse as IPv4 and is
replaced by its two hextets (as `%x`-printed strings). -/
def expandV4Tail (parts : List (List Char)) : Option (List (List Char)) :=
  let last := parts.getLast?.getD []
  if last.contains '.' then
    match parseIPv4 last with
    | some v =>
      some (parts.dropLast ++
        [Nat.toDigits 16 ((v / 65536) % 65536), Nat.toDigits 16 (v % 65536)])
    | none => none
  else some parts

/-- Accumulate hextets big-endian. -/
def foldHextets (acc : Nat) (hs : List Nat) : Nat :=
  hs.foldl (fun a x => a * 65536 + x) acc

/-- `IPv6Address._ip_int_from_string` (after the `%` zone split): split on
`:`; at least 3 and at most 9 parts (after embedded-IPv4 expansion); at
most one empty part strictly inside, marking the `::` gap; an empty first
or last part is only permitted as part of a leading or trailing `::`; the
gap must cover at least one hextet; without a gap there must be exactly
eight parts. -/
def parseIPv6NoZone (s : List Char) : Option Nat := do
  let parts0 := splitOnChar ':' s
  if parts0.length < 3 then failure
  let parts ← expandV4Tail parts0
  if 9 < parts.length then failure
  let inner := (parts.drop 1).dropLast
  if 2 ≤ inner.countP (· = []) then failure
  if inner.countP (· = []) = 1 then
    let skip_index := inner.findIdx (· = []) + 1
    let parts_hi ←
      if parts.headI = [] then (if skip_index = 1 then some 0 else none)
      else some skip_index
    let lo0 := parts.length - skip_index - 1
    let parts_lo ←
      if parts.getLast?.getD [] = [] then (if lo0 = 1 then some 0 else none)
      else some lo0
    if 8 < parts_hi + parts_lo + 1 then failure
    let parts_skipped := 8 - (parts_hi + parts_lo)
    let his ← (parts.take parts_hi).mapM parse_hextet
    let los ← (parts.drop (parts.length - parts_lo)).mapM parse_hextet
    pure (foldHextets (foldHextets 0 his * 65536 ^ parts_skipped) los)
  else
    if parts.length ≠ 8 then failure
    let vs ← parts.mapM parse_hextet
    pure (foldHextets 0 vs)

/-- `IPv6Address` parsing: an optional non-empty `%` zone id is split off
first. -/
def parseIPv6 (s : List Char) : Option Nat :=
  match splitOnChar '%' s with
  | [addr] => parseIPv6NoZone addr
  | [addr, zone] => if zone = [] then none else parseIPv6NoZone addr
  | _ => none

/-- A parsed IP address with its numeric value. -/
inductive IPAddr where
  | v4 (val : Nat)
  | v6 (val : Nat)
deriving DecidableEq, Repr

/-- `ipaddress.ip_address`: try IPv4, then IPv6; `none` is the
`ValueError` for a string that is neither. -/
def ip_address (s : List Char) : Option IPAddr :=
  match parseIPv4 s with
  | some v => some (.v4 v)
  | none =>
    match parseIPv6 s with
    | some v => some (.v6 v)
    | none => none

/-- Membership of a value in a CIDR network `base/plen` of the given
address width. -/
def inNet (width v base plen : Nat) : Bool :=
  base ≤ v ∧ v < base + 2 ^ (width - plen)

/-- The numeric value of a dotted quad. -/
def v4Addr (a b c d : Nat) : Nat := ((a * 256 + b) * 256 + c) * 256 + d

/-- The numeric value of eight hextets. -/
def v6Addr (hs : List Nat) : Nat := foldHextets 0 hs

/-- CPython `IPv4Address` `_private_networks`. -/
def private_networks_v4 : List (Nat × Nat) :=
  [(v4Addr 0 0 0 0, 8), (v4Addr 10 0 0 0, 8), (v4Addr 127 0 0 0, 8),
   (v4Addr 169 254 0 0, 16), (v4Addr 172 16 0 0, 12), (v4Addr 192 0 0 0, 29),
   (v4Addr 192 0 0 170, 31), (v4Addr 192 0 2 0, 24), (v4Addr 192 168 0 0, 16),
   (v4Addr 198 18 0 0, 15), (v4Addr 198 51 100 0, 24),
   (v4Addr 203 0 113 0, 24), (v4Addr 240 0 0 0, 4),
   (v4Addr 255 255 255 255, 32)]

/-- CPython `IPv6Address` `_private_networks`. -/
def private_networks_v6 : List (Nat × Nat) :=
  [(1, 128), (0, 128), (v6Addr [0, 0, 0, 0, 0, 0xffff, 0, 0], 96),
   (v6Addr [0x100, 0, 0, 0, 0, 0, 0, 0], 64),
   (v6Addr [0x2001, 0, 0, 0, 0, 0, 0, 0], 23),
   (v6Addr [0x2001, 2, 0, 0, 0, 0, 0, 0], 48),
   (v6Addr [0x2001, 0xdb8, 0, 0, 0, 0, 0, 0], 32),
   (v6Addr [0x2001, 0x10, 0, 0, 0, 0, 0, 0], 28),
   (v6Addr [0xfc00, 0, 0, 0, 0, 0, 0, 0], 7),
   (v6Addr [0xfe80, 0, 0, 0, 0, 0, 0, 0], 10)]

/-- CPython `IPv6Address` `_reserved_networks` (bases are the top hextet). -/
def reserved_networks_v6 : List (Nat × Nat) :=
  [(0, 8), (0x100, 8), (0x200, 7), (0x400, 6), (0x800, 5), (0x1000, 4),
   (0x4000, 3), (0x6000, 3), (0x8000, 3), (0xA000, 3), (0xC000, 3),
   (0xE000, 4), (0xF000, 5), (0xF800, 6), (0xFE00, 9)].map
    (fun p => (v6Addr [p.1, 0, 0, 0, 0, 0, 0, 0], p.2))

/-- `is_private`. -/
def IPAddr.is_private : IPAddr → Bool
  | .v4 v => private_networks_v4.any (fun p => inNet 32 v p.1 p.2)
  | .v6 v => private_networks_v6.any (fun p => inNet 128 v p.1 p.2)

/-- `is_loopback`: `127.0.0.0/8` for IPv4, `::1` for IPv6. -/
def IPAddr.is_loopback : IPAddr → Bool
  | .v4 v => inNet 32 v (v4Addr 127 0 0 0) 8
  | .v6 v => v = 1

/-- `is_reserved`: `240.0.0.0/4` for IPv4, the reserved block list for
IPv6. -/
def IPAddr.is_reserved : IPAddr → Bool
  | .v4 v => inNet 32 v (v4Addr 240 0 0 0) 4
  | .v6 v => reserved_networks_v6.any (fun p => inNet 128 v p.1 p.2)

end PyIP

/-! ### A model of `urllib.parse.urlparse(url).scheme / .hostname`
(CPython 3.11), as used by `URLValidator.validate_url`.

Modelled: lstrip of C0-control/space characters and removal of embedded
tab/CR/LF; scheme recognition (leading ASCII letter, scheme characters up
to the first `:`, lowercased); netloc extraction after `//` up to the
first `/`, `?` or `#`; the `Invalid IPv6 URL` ValueError for unbalanced
brackets and the bracketed-host validation (IPv6 or IPvFuture only);
hostname extraction (after the last `@`; bracket contents, or up to `:`;
lowercased; empty becomes `None`).  The NFKC re-check `_checknetloc`,
which can only reject additional URLs containing non-ASCII netloc
characters, is not modelled. -/

namespace PyUrl

/-- `scheme_chars` from `urllib.parse`. -/
def scheme_chars : List Char :=
  "abcdefghijklmnopqrstuvwxyzABCDEFGHIJKLMNOPQRSTUVWXYZ0123456789+-.".data

/-- An ASCII letter (`c.isascii() and c.isalpha()`). -/
def isAsciiAlpha (c : Char) : Bool :=
  ('A' ≤ c ∧ c ≤ 'Z') ∨ ('a' ≤ c ∧ c ≤ 'z')

/-- `url.lstrip(_WHATWG_C0_CONTROL_OR_SPACE)` followed by removal of every
tab, CR and LF (`_UNSAFE_URL_BYTES_TO_REMOVE`). -/
def scrub (l : List Char) : List Char :=
  (l.dropWhile (fun c => c.val ≤ 0x20)).filter
    (fun c => ¬(c = '\t' ∨ c = '\r' ∨ c = '\n'))

/-- Scheme recognition: characters before the first `:` (which must exist
at a positive index, start with an ASCII letter and consist of scheme
characters) are the lowercased scheme; otherwise the scheme is empty and
the URL is left whole. -/
def splitScheme (l : List Char) : List Char × List Char :=
  match l.findIdx? (· = ':') with
  | some i =>
    if 0 < i ∧ isAsciiAlpha l.headI ∧ (l.take i).all (scheme_chars.contains ·) then
      ((l.take i).map Char.toLower, l.drop (i + 1))
    else ([], l)
  | none => ([], l)

/-- `str.rpartition(c)[2]`: the part after the last occurrence of `c`
(the whole string when `c` is absent). -/
def afterLast (c : Char) (l : List Char) : List Char :=
  (l.reverse.takeWhile (· ≠ c)).reverse

/-- `str.partition(c)[2]`: the part after the first occurrence of `c`
(empty when `c` is absent). -/
def afterFirst (c : Char) (l : List Char) : List Char :=
  (l.dropWhile (· ≠ c)).tail

/-- `str.partition(c)[0]`: the part before the first occurrence of `c`. -/
def beforeFirst (c : Char) (l : List Char) : List Char :=
  l.takeWhile (· ≠ c)

/-- `SplitResult.hostname` computed from the netloc (`_hostinfo`,
lowercased, empty mapped to `None`). -/
def hostnameOf (netloc : List Char) : Option (List Char) :=
  let hostinfo := afterLast '@' netloc
  let h :=
    if hostinfo.contains '[' then beforeFirst ']' (afterFirst '[' hostinfo)
    else beforeFirst ':' hostinfo
  if h = [] then none else some (h.map Char.toLower)

/-- `urllib.parse._check_bracketed_host`: an IPvFuture literal
(`v`, hex digits, a dot, a non-empty newline-free rest) is accepted;
anything else must parse as an IPv6 address (an IPv4 address in brackets
is rejected). -/
def checkBracketedHost (h : List Char) : Bool :=
  match h with
  | 'v' :: rest =>
    let hexs := rest.takeWhile PyIP.isHexDig
    let after := rest.drop hexs.length
    hexs ≠ [] ∧ after.headI = '.' ∧ after ≠ [] ∧ after.tail ≠ [] ∧
      ¬ after.tail.contains '\n'
  | _ =>
    match PyIP.ip_address h with
    | some (.v6 _) => true
    | _ => false

/-- The scheme and hostname of a split URL. -/
structure SplitUrl where
  scheme : List Char
  hostname : Option (List Char)
deriving DecidableEq, Repr

/-- `urlparse` restricted to scheme and hostname; `none` is a raised
`ValueError` (unbalanced brackets or an invalid bracketed host). -/
def urlsplit (url : List Char) : Option SplitUrl :=
  let url1 := scrub url
  let (scheme, rest) := splitScheme url1
  if rest.take 2 = ['/', '/'] then
    let netloc := (rest.drop 2).takeWhile (fun c => ¬(c = '/' ∨ c = '?' ∨ c = '#'))
    if (netloc.contains '[' ∧ ¬ netloc.contains ']') ∨
       (netloc.contains ']' ∧ ¬ netloc.contains '[') then none
    else if netloc.contains '[' ∧ netloc.contains ']' then
      if checkBracketedHost (beforeFirst ']' (afterFirst '[' netloc)) then
        some ⟨scheme, hostnameOf netloc⟩
      else none
    else some ⟨scheme, hostnameOf netloc⟩
  else some ⟨scheme, none⟩

end PyUrl

namespace URLValidator

/-- `URLValidator.ALLOWED_SCHEMES`. -/
def ALLOWED_SCHEMES : List String := ["http", "https"]

/-- `URLValidator.BLOCKED_DOMAINS`. -/
def BLOCKED_DOMAINS : List String := ["localhost", "127.0.0.1", "0.0.0.0", "::1"]

/-- `URLValidator._is_private_ip`: `False` for anything that is not an IP
literal, otherwise `is_private or is_reserved or is_loopback`. -/
def _is_private_ip (hostname : String) : Bool :=
  match PyIP.ip_address hostname.data with
  | some ip => ip.is_private || ip.is_reserved || ip.is_loopback
  | none => false

/-- `URLValidator.validate_url`: empty and over-long URLs are rejected
before parsing; a parse-time `ValueError` is caught and rejected; then the
scheme, the blocked-domain list and the private-IP test are checked in
order. -/
def validate_url (url : String) : Bool × Option String :=
  if url = "" then (false, some "URL cannot be empty")
  else if 2048 < url.length then (false, some "URL too long (max 2048 characters)")
  else
    match PyUrl.urlsplit url.data with
    | none => (false, some "Invalid URL: Invalid IPv6 URL")
    | some parsed =>
      let scheme := String.mk parsed.scheme
      let hostname := parsed.hostname.map String.mk
      if ¬ ALLOWED_SCHEMES.contains scheme then
        (false, some s!"URL scheme {scheme} not allowed (use http/https)")
      else if (match hostname with
               | some h => BLOCKED_DOMAINS.contains h
               | none => false) then
        (false, some "Cannot access localhost")
      else if (match hostname with
               | some h => _is_private_ip h
               | none => false) then
        (false, some "Cannot access private network addresses")
      else (true, none)

end URLValidator

/-- A completed task (final status `SUCCESS`), used to exercise the
mutators on a task whose status is final. -/
def exSuccessTask : Task :=
  ⟨TaskStatus.success, DocumentFormat.markdown, DocumentFormat.pdf,
   some 7, 100, "Conversion completed successfully", none, none,
   some 5, some 9, some 4, 0⟩

/-- Tasks reachable in the model: validated at construction and then
mutated only through `set_processing` / `set_completed` / `set_failed`. -/
inductive Task.Reachable : Task → Prop where
  | constructed (status : TaskStatus) (sf tf : DocumentFormat)
      (ofid : Option Nat) (progress : Int) (msg : String)
      (ec : Option ErrorCode) (ed : Option String) (sa ca : Option Nat)
      (pt : Option Int) (rc : Int) (t : Task)
      (h : Task.construct status sf tf ofid progress msg ec ed sa ca pt rc =
        some t) : Task.Reachable t
  | processing (t : Task) (now : Nat) (h : Task.Reachable t) :
      Task.Reachable (t.set_processing now)
  | completed (t : Task) (fid now : Nat) (h : Task.Reachable t) :
      Task.Reachable (t.set_completed fid now)
  | failed (t : Task) (code : ErrorCode) (details : String) (now : Nat)
      (h : Task.Reachable t) : Task.Reachable (t.set_failed code details now)

end Doctor

namespace Doctor

/-! ## Theorems -/

/-- **C1** (corrected), counterexample to the claim as stated: on a task
whose status is the final status `SUCCESS`, calling `set_processing` does
*not* leave the status unchanged — it overwrites it with `PROCESSING`. -/
theorem c1_counterexample_set_processing_changes_final_status :
    TaskStatus.is_final exSuccessTask.status = true ∧
    (exSuccessTask.set_processing 11).status ≠ exSuccessTask.status := by
  decide

/-- **C1** (amended): the mutators assign their target status
unconditionally, with no finality guard: after `set_processing` the status
is `PROCESSING`, after `set_completed` it is `SUCCESS`, and after
`set_failed` it is `FAILED`, whatever the previous status was — so a final
status does not prevent further status changes. -/
theorem c1_mutators_assign_status_unconditionally :
    ∀ (t : Task) (now fid : Nat) (code : ErrorCode) (details : String),
      (t.set_processing now).status = TaskStatus.processing ∧
      (t.set_completed fid now).status = TaskStatus.success ∧
      (t.set_failed code details now).status = TaskStatus.failed := by
  intro t now fid code details
  refine ⟨rfl, ?_, rfl⟩
  unfold Task.set_completed
  cases t.started_at <;> rfl

/-- **C2** (confirmed): `can_convert` is false on every reflexive pair, is
symmetric, normalization always lands in the triangle
`{MARKDOWN, PDF, HTML}`, and every pair of formats with distinct normal
forms is convertible (in particular in both directions). -/
theorem c2_can_convert_triangle :
    (∀ f : DocumentFormat, Constants.can_convert f f = false) ∧
    (∀ a b : DocumentFormat,
      Constants.can_convert a b = Constants.can_convert b a) ∧
    (∀ f : DocumentFormat,
      DocumentFormat.normalize f.value = DocumentFormat.markdown ∨
      DocumentFormat.normalize f.value = DocumentFormat.pdf ∨
      DocumentFormat.normalize f.value = DocumentFormat.html) ∧
    (∀ a b : DocumentFormat,
      DocumentFormat.normalize a.value ≠ DocumentFormat.normalize b.value →
      Constants.can_convert a b = true) := by
  decide

/-- **C2** witness: the universal statement applied at the concrete pair
`(MARKDOWN, PDF)`, whose normal forms differ. -/
theorem c2_can_convert_triangle_witness :
    Constants.can_convert DocumentFormat.markdown DocumentFormat.pdf = true :=
  c2_can_convert_triangle.2.2.2 DocumentFormat.markdown DocumentFormat.pdf
    (by decide)

/-- `normalize` always returns one of the three canonical formats. -/
theorem normalize_cases (s : String) :
    DocumentFormat.normalize s = DocumentFormat.markdown ∨
    DocumentFormat.normalize s = DocumentFormat.pdf ∨
    DocumentFormat.normalize s = DocumentFormat.html := by
  unfold DocumentFormat.normalize
  generalize pyLower s = k
  cases h1 : k == "markdown" <;> cases h2 : k == "md" <;>
    cases h3 : k == "pdf" <;> cases h4 : k == "html" <;>
    cases h5 : k == "htm" <;>
    simp [DocumentFormat.format_map, List.lookup, h1, h2, h3, h4, h5]

/-- **C3** (confirmed): `normalize` resolves the five lowercase aliases to
their members, depends on its input only through lowercasing (so aliases
are resolved case-insensitively), falls back to `MARKDOWN` on every string
whose lowercase form is not one of the five aliases, and is idempotent:
`normalize(normalize(x).value) == normalize(x)` for every string `x`. -/
theorem c3_normalize_aliases_fallback_idempotent :
    (DocumentFormat.normalize "markdown" = DocumentFormat.markdown ∧
     DocumentFormat.normalize "md" = DocumentFormat.markdown ∧
     DocumentFormat.normalize "pdf" = DocumentFormat.pdf ∧
     DocumentFormat.normalize "html" = DocumentFormat.html ∧
     DocumentFormat.normalize "htm" = DocumentFormat.html ∧
     DocumentFormat.normalize "MD" = DocumentFormat.markdown ∧
     DocumentFormat.normalize "Htm" = DocumentFormat.html) ∧
    (∀ s t : String, pyLower s = pyLower t →
      DocumentFormat.normalize s = DocumentFormat.normalize t) ∧
    (∀ s : String,
      ¬(pyLower s = "markdown" ∨ pyLower s = "md" ∨ pyLower s = "pdf" ∨
        pyLower s = "html" ∨ pyLower s = "htm") →
      DocumentFormat.normalize s = DocumentFormat.markdown) ∧
    (∀ s : String,
      DocumentFormat.normalize (DocumentFormat.normalize s).value =
        DocumentFormat.normalize s) := by
  refine ⟨by decide, ?_, ?_, ?_⟩
  · intro s t h
    unfold DocumentFormat.normalize
    rw [h]
  · intro s h
    push_neg at h
    obtain ⟨h1, h2, h3, h4, h5⟩ := h
    unfold DocumentFormat.normalize
    simp [DocumentFormat.format_map, List.lookup,
      beq_eq_false_iff_ne.mpr h1, beq_eq_false_iff_ne.mpr h2,
      beq_eq_false_iff_ne.mpr h3, beq_eq_false_iff_ne.mpr h4,
      beq_eq_false_iff_ne.mpr h5]
  · intro s
    rcases normalize_cases s with h | h | h <;> rw [h] <;> decide

/-- **C3** witness: the fallback clause applied at the concrete
unrecognized string `"docx"`, and the case-insensitivity clause applied at
the concrete pair `("MD", "md")`. -/
theorem c3_normalize_witness :
    DocumentFormat.normalize "docx" = DocumentFormat.markdown ∧
    DocumentFormat.normalize "MD" = DocumentFormat.normalize "md" :=
  ⟨c3_normalize_aliases_fallback_idempotent.2.2.1 "docx" (by decide),
   c3_normalize_aliases_fallback_idempotent.2.1 "MD" "md" (by decide)⟩

/-- **C4** (corrected), counterexample to the claim as stated: the claim
names 500000000 as the `file` ceiling and says 500000001 must be rejected,
but the code's ceiling is `MAX_FILE_SIZE = 524288000` (500 MiB), so the
validator accepts 500000001 bytes from source `file`. -/
theorem c4_counterexample_file_limit_is_mib :
    FileValidator.validate_file_size 500000001 "file" = (true, none) := by
  decide

/-- **C4** (amended): `validate_file_size` rejects every non-positive
size; a positive size is accepted iff it is at most the source-dependent
ceiling `max_sizes.get(source, MAX_FILE_SIZE)` (file: 524288000, text:
10485760, url: 104857600, unknown sources falling back to the file
ceiling); each exactly-at-limit size is accepted and each limit+1 is
rejected. -/
theorem c4_validate_file_size_limits :
    (∀ (size : Int) (source : String), size ≤ 0 →
      (FileValidator.validate_file_size size source).1 = false) ∧
    (∀ (size : Int) (source : String), 0 < size →
      ((FileValidator.validate_file_size size source).1 = true ↔
        size ≤ (FileValidator.max_sizes.lookup source).getD
          Constants.MAX_FILE_SIZE)) ∧
    ((FileValidator.validate_file_size 524288000 "file").1 = true ∧
     (FileValidator.validate_file_size 524288001 "file").1 = false) ∧
    ((FileValidator.validate_file_size 10485760 "text").1 = true ∧
     (FileValidator.validate_file_size 10485761 "text").1 = false) ∧
    ((FileValidator.validate_file_size 104857600 "url").1 = true ∧
     (FileValidator.validate_file_size 104857601 "url").1 = false) ∧
    ((FileValidator.validate_file_size 524288000 "s3").1 = true ∧
     (FileValidator.validate_file_size 524288001 "s3").1 = false) := by
  refine ⟨?_, ?_, by decide, by decide, by decide, by decide⟩
  · intro size source h
    unfold FileValidator.validate_file_size
    rw [if_pos h]
  · intro size source h
    simp only [FileValidator.validate_file_size]
    rw [if_neg (by omega)]
    split_ifs with h2 <;> simp <;> omega

/-- **C4** witness: the acceptance criterion applied at the concrete size
1024 from source `file`. -/
theorem c4_validate_file_size_witness :
    (FileValidator.validate_file_size 1024 "file").1 = true :=
  (c4_validate_file_size_limits.2.1 1024 "file" (by decide)).mpr (by decide)

/-! Support lemmas about the `pathlib` model, used for C5. -/

theorem headI_mem {α} [Inhabited α] {l : List α} (h : l ≠ []) : l.headI ∈ l := by
  cases l with
  | nil => exact absurd rfl h
  | cons a t => simp

theorem mem_of_getLastQ {α} {l : List α} {a : α} (h : l.getLast? = some a) :
    a ∈ l := by
  induction l with
  | nil => simp at h
  | cons b t ih =>
    cases t with
    | nil =>
      simp at h
      subst h
      simp
    | cons c t2 =>
      rw [List.getLast?_cons_cons] at h
      exact List.mem_cons_of_mem _ (ih h)

theorem splitOnChar_ne_nil (sep : Char) (l : List Char) :
    splitOnChar sep l ≠ [] := by
  cases l with
  | nil => simp [splitOnChar]
  | cons c rest =>
    simp only [splitOnChar]
    split <;> simp

theorem mem_splitOnChar_not_sep (sep : Char) :
    ∀ l : List Char, ∀ p ∈ splitOnChar sep l, sep ∉ p := by
  intro l
  induction l with
  | nil =>
    intro p hp
    simp [splitOnChar] at hp
    subst hp
    simp
  | cons c rest ih =>
    intro p hp
    by_cases hcs : c = sep
    · simp only [splitOnChar] at hp
      rw [if_pos hcs] at hp
      rcases List.mem_cons.mp hp with rfl | hp2
      · simp
      · exact ih p hp2
    · simp only [splitOnChar] at hp
      rw [if_neg hcs] at hp
      rcases List.mem_cons.mp hp with rfl | hp2
      · intro hmem
        rcases List.mem_cons.mp hmem with h1 | h1
        · exact hcs h1.symm
        · exact ih _ (headI_mem (splitOnChar_ne_nil sep rest)) h1
      · exact ih p (List.mem_of_mem_tail hp2)

theorem mem_splitOnChar_subset (sep : Char) :
    ∀ l : List Char, ∀ p ∈ splitOnChar sep l, ∀ c ∈ p, c ∈ l := by
  intro l
  induction l with
  | nil =>
    intro p hp c hc
    simp [splitOnChar] at hp
    subst hp
    simp at hc
  | cons a rest ih =>
    intro p hp c hc
    by_cases has : a = sep
    · simp only [splitOnChar] at hp
      rw [if_pos has] at hp
      rcases List.mem_cons.mp hp with rfl | hp2
      · simp at hc
      · exact List.mem_cons_of_mem a (ih p hp2 c hc)
    · simp only [splitOnChar] at hp
      rw [if_neg has] at hp
      rcases List.mem_cons.mp hp with rfl | hp2
      · rcases List.mem_cons.mp hc with rfl | hc2
        · exact List.mem_cons_self _ _
        · exact List.mem_cons_of_mem a
            (ih _ (headI_mem (splitOnChar_ne_nil sep rest)) c hc2)
      · exact List.mem_cons_of_mem a (ih p (List.mem_of_mem_tail hp2) c hc)

theorem splitOnChar_of_not_mem {sep : Char} :
    ∀ {l : List Char}, sep ∉ l → splitOnChar sep l = [l] := by
  intro l
  induction l with
  | nil => intro _; rfl
  | cons a rest ih =>
    intro h
    have ha : ¬ a = sep := fun e => h (by rw [e]; exact List.mem_cons_self _ _)
    have hr : sep ∉ rest := fun hm => h (List.mem_cons_of_mem _ hm)
    simp only [splitOnChar]
    rw [if_neg ha, ih hr]
    rfl

theorem splitOnChar_append (sep : Char) (rest : List Char) :
    ∀ p : List Char, sep ∉ p →
      splitOnChar sep (p ++ sep :: rest) = p :: splitOnChar sep rest := by
  intro p
  induction p with
  | nil =>
    intro _
    simp [splitOnChar]
  | cons a p2 ih =>
    intro h
    have ha : ¬ a = sep := fun e => h (by rw [e]; exact List.mem_cons_self _ _)
    have hp2 : sep ∉ p2 := fun hm => h (List.mem_cons_of_mem _ hm)
    rw [show (a :: p2) ++ sep :: rest = a :: (p2 ++ sep :: rest) from rfl]
    simp only [splitOnChar]
    rw [if_neg ha, ih hp2]
    rfl

theorem splitOnChar_joinSep (sep : Char) :
    ∀ ps : List (List Char), ps ≠ [] → (∀ p ∈ ps, sep ∉ p) →
      splitOnChar sep (joinSep sep ps) = ps := by
  intro ps
  induction ps with
  | nil => intro h _; exact absurd rfl h
  | cons p ps2 ih =>
    intro _ hall
    cases ps2 with
    | nil => exact splitOnChar_of_not_mem (hall p (List.mem_cons_self _ _))
    | cons q ps3 =>
      rw [show joinSep sep (p :: q :: ps3) = p ++ sep :: joinSep sep (q :: ps3)
        from rfl]
      rw [splitOnChar_append sep _ p (hall p (List.mem_cons_self _ _))]
      rw [ih (by simp) (fun r hr => hall r (List.mem_cons_of_mem _ hr))]

theorem mem_joinSep (sep : Char) :
    ∀ (ps : List (List Char)) (c : Char), c ∈ joinSep sep ps →
      c = sep ∨ ∃ p ∈ ps, c ∈ p := by
  intro ps
  induction ps with
  | nil => intro c hc; simp [joinSep] at hc
  | cons p ps2 ih =>
    intro c hc
    cases ps2 with
    | nil => exact Or.inr ⟨p, List.mem_cons_self _ _, hc⟩
    | cons q ps3 =>
      rw [show joinSep sep (p :: q :: ps3) = p ++ sep :: joinSep sep (q :: ps3)
        from rfl] at hc
      rcases List.mem_append.mp hc with h | h
      · exact Or.inr ⟨p, List.mem_cons_self _ _, h⟩
      · rcases List.mem_cons.mp h with rfl | h2
        · exact Or.inl rfl
        · rcases ih c h2 with h3 | ⟨r, hr, hcr⟩
          · exact Or.inl h3
          · exact Or.inr ⟨r, List.mem_cons_of_mem _ hr, hcr⟩

theorem replaceBackslash_of_not_mem :
    ∀ {l : List Char}, '\\' ∉ l → PyPath.replaceBackslash l = l := by
  intro l
  induction l with
  | nil => intro _; rfl
  | cons a t ih =>
    intro h
    have ha : ¬ a = '\\' := fun e => h (by rw [e]; exact List.mem_cons_self _ _)
    have ht : '\\' ∉ t := fun hm => h (List.mem_cons_of_mem _ hm)
    simp only [PyPath.replaceBackslash, List.map_cons] at *
    rw [if_neg ha, ih ht]

theorem mem_components {l p : List Char} (hp : p ∈ PyPath.components l) :
    p ≠ [] ∧ p ≠ ['.'] ∧ '/' ∉ p ∧ ∀ c ∈ p, c ∈ l := by
  unfold PyPath.components PyPath.splitSlash at hp
  obtain ⟨hmem, hcond⟩ := List.mem_filter.mp hp
  simp at hcond
  exact ⟨hcond.1, hcond.2, mem_splitOnChar_not_sep '/' l p hmem,
    mem_splitOnChar_subset '/' l p hmem⟩

theorem components_joinSep {comps : List (List Char)} (h1 : comps ≠ [])
    (h2 : ∀ p ∈ comps, p ≠ [] ∧ p ≠ ['.'] ∧ '/' ∉ p) :
    PyPath.components (joinSep '/' comps) = comps := by
  unfold PyPath.components PyPath.splitSlash
  rw [splitOnChar_joinSep '/' comps h1 (fun p hp => (h2 p hp).2.2)]
  apply List.filter_eq_self.mpr
  intro p hp
  simp [(h2 p hp).1, (h2 p hp).2.1]

theorem pyRoot_cons_of_ne {a : Char} {t : List Char} (h : a ≠ '/') :
    PyPath.pyRoot (a :: t) = [] := by
  simp [PyPath.pyRoot, h]

/-- A nonempty `/`-join of clean components (nonempty, not `.`, not `..`,
slash-free, backslash-free) is a fixed point of `sanitize_path`. -/
theorem sanitize_path_joinSep_fixed (comps : List (List Char)) (h1 : comps ≠ [])
    (h2 : ∀ p ∈ comps, p ≠ [] ∧ p ≠ ['.'] ∧ '/' ∉ p ∧ '\\' ∉ p)
    (h3 : ['.', '.'] ∉ comps) :
    FileValidator.sanitize_path (String.mk (joinSep '/' comps)) =
      String.mk (joinSep '/' comps) := by
  have hcomp : PyPath.components (joinSep '/' comps) = comps :=
    components_joinSep h1
      (fun p hp => ⟨(h2 p hp).1, (h2 p hp).2.1, (h2 p hp).2.2.1⟩)
  have hroot : PyPath.pyRoot (joinSep '/' comps) = [] := by
    cases comps with
    | nil => exact absurd rfl h1
    | cons c cs =>
      rcases h2 c (List.mem_cons_self _ _) with ⟨hc1, _, hc3, _⟩
      cases c with
      | nil => exact absurd rfl hc1
      | cons a t =>
        have ha : a ≠ '/' := fun e => hc3 (by rw [← e]; exact List.mem_cons_self _ _)
        cases cs with
        | nil => exact pyRoot_cons_of_ne ha
        | cons q cs2 =>
          rw [show joinSep '/' ((a :: t) :: q :: cs2) =
            a :: (t ++ '/' :: joinSep '/' (q :: cs2)) from rfl]
          exact pyRoot_cons_of_ne ha
  have habs : PyPath.isAbsolute (joinSep '/' comps) = false := by
    simp [PyPath.isAbsolute, hroot]
  have hpar : PyPath.hasParentRef (joinSep '/' comps) = false := by
    simp only [PyPath.hasParentRef, hcomp]
    simpa using h3
  have hnb : '\\' ∉ joinSep '/' comps := by
    intro hm
    rcases mem_joinSep '/' comps _ hm with h | ⟨p, hp, hcp⟩
    · exact absurd h (by decide)
    · exact (h2 p hp).2.2.2 hcp
  have hstr : PyPath.pyStr (joinSep '/' comps) = joinSep '/' comps := by
    unfold PyPath.pyStr
    rw [hroot, hcomp, if_neg (fun hand => h1 hand.2)]
    simp
  unfold FileValidator.sanitize_path
  rw [show (String.mk (joinSep '/' comps)).data = joinSep '/' comps from rfl]
  rw [if_neg (by rw [habs, hpar]; simp)]
  rw [hstr, replaceBackslash_of_not_mem hnb]

/-- **C5** (corrected), counterexample to the claim as stated:
`sanitize_path` is not idempotent.  On `..\file.txt` the first pass only
normalizes the backslash, producing `../file.txt`, which a second pass
collapses to `file.txt`; and on the absolute root `/` the first pass
returns the empty base name, which a second pass turns into `.`. -/
theorem c5_counterexample_not_idempotent :
    FileValidator.sanitize_path (FileValidator.sanitize_path "..\\file.txt") ≠
      FileValidator.sanitize_path "..\\file.txt" ∧
    FileValidator.sanitize_path (FileValidator.sanitize_path "/") ≠
      FileValidator.sanitize_path "/" := by
  decide

/-- **C5** (amended): the two documented examples hold, and `sanitize_path`
is idempotent on every path that contains no backslash and whose sanitized
form is nonempty (the failures are exactly the backslash-hidden
separators, normalized only on the first pass, and the absolute paths with
an empty base name, whose sanitized form `""` re-sanitizes to `.`). -/
theorem c5_sanitize_path_examples_and_idempotence :
    FileValidator.sanitize_path "uploads/../file.txt" = "file.txt" ∧
    FileValidator.sanitize_path "uploads/file.txt" = "uploads/file.txt" ∧
    (∀ p : String, '\\' ∉ p.data → FileValidator.sanitize_path p ≠ "" →
      FileValidator.sanitize_path (FileValidator.sanitize_path p) =
        FileValidator.sanitize_path p) := by
  refine ⟨by decide, by decide, ?_⟩
  intro p hnb hne
  by_cases hb : (PyPath.isAbsolute p.data || PyPath.hasParentRef p.data) = true
  · have h1 : FileValidator.sanitize_path p = String.mk (PyPath.pyName p.data) := by
      unfold FileValidator.sanitize_path
      rw [if_pos hb]
    have hcne : PyPath.pyName p.data ≠ [] := by
      intro e
      apply hne
      rw [h1, e]
    have hmem : PyPath.pyName p.data ∈ PyPath.components p.data := by
      unfold PyPath.pyName
      cases hl : (PyPath.components p.data).getLast? with
      | none =>
        exfalso
        apply hcne
        unfold PyPath.pyName
        rw [hl]
        rfl
      | some q =>
        simp only [Option.getD_some]
        exact mem_of_getLastQ hl
    rcases mem_components hmem with ⟨hc1, hc2, hc3, hc4⟩
    rw [h1]
    by_cases hdd : PyPath.pyName p.data = ['.', '.']
    · rw [hdd]
      decide
    · have hfix := sanitize_path_joinSep_fixed [PyPath.pyName p.data] (by simp)
        (by
          intro q hq
          rw [List.mem_singleton] at hq
          subst hq
          exact ⟨hc1, hc2, hc3, fun hm => hnb (hc4 _ hm)⟩)
        (by
          rw [List.mem_singleton]
          exact fun e => hdd e.symm)
      simpa [joinSep] using hfix
  · have h1 : FileValidator.sanitize_path p =
        String.mk (PyPath.replaceBackslash (PyPath.pyStr p.data)) := by
      unfold FileValidator.sanitize_path
      rw [if_neg hb]
    simp only [Bool.or_eq_true, not_or, Bool.not_eq_true] at hb
    obtain ⟨habs, hpar0⟩ := hb
    have hroot : PyPath.pyRoot p.data = [] := by
      simpa [PyPath.isAbsolute] using habs
    have hpar : ['.', '.'] ∉ PyPath.components p.data := by
      simpa [PyPath.hasParentRef] using hpar0
    rw [h1]
    by_cases hcnil : PyPath.components p.data = []
    · have hstr : PyPath.pyStr p.data = ['.'] := by
        unfold PyPath.pyStr
        rw [if_pos ⟨hroot, hcnil⟩]
      rw [hstr]
      decide
    · have hstr : PyPath.pyStr p.data = joinSep '/' (PyPath.components p.data) := by
        unfold PyPath.pyStr
        rw [if_neg (fun hand => hcnil hand.2), hroot]
        rfl
      have hnb2 : '\\' ∉ PyPath.pyStr p.data := by
        rw [hstr]
        intro hm
        rcases mem_joinSep '/' _ _ hm with h | ⟨q, hq, hcq⟩
        · exact absurd h (by decide)
        · exact hnb ((mem_components hq).2.2.2 _ hcq)
      rw [replaceBackslash_of_not_mem hnb2, hstr]
      exact sanitize_path_joinSep_fixed (PyPath.components p.data) hcnil
        (fun q hq => ⟨(mem_components hq).1, (mem_components hq).2.1,
          (mem_components hq).2.2.1, fun hm => hnb ((mem_components hq).2.2.2 _ hm)⟩)
        hpar

/-- **C5** witness: the amended idempotence applied at the concrete
backslash-free path `uploads/file.txt`. -/
theorem c5_sanitize_path_witness :
    FileValidator.sanitize_path (FileValidator.sanitize_path "uploads/file.txt") =
      FileValidator.sanitize_path "uploads/file.txt" :=
  c5_sanitize_path_examples_and_idempotence.2.2 "uploads/file.txt"
    (by decide) (by decide)

/-- **C6** (confirmed): every `ErrorCode` is present in `status_map` (no
code is left to the `.get` fallthrough), and its status is one of the ten
documented status classes. -/
theorem c6_to_http_status_total :
    ∀ e : ErrorCode,
      ErrorCode.status_map e = some e.to_http_status ∧
      e.to_http_status ∈ [400, 404, 408, 410, 413, 422, 429, 500, 503, 507] := by
  decide

/-- **C7** (confirmed): every task validated at construction and mutated
only through the three mutators keeps `retry_count` within 0–3, and
`can_retry` holds iff the status is `FAILED` and `retry_count < 3`. -/
theorem c7_retry_count_bounds_and_can_retry :
    (∀ t : Task, Task.Reachable t → 0 ≤ t.retry_count ∧ t.retry_count ≤ 3) ∧
    (∀ t : Task, t.can_retry = true ↔
      t.status = TaskStatus.failed ∧ t.retry_count < 3) := by
  constructor
  · intro t h
    induction h with
    | constructed status sf tf ofid progress msg ec ed sa ca pt rc t h =>
      unfold Task.construct at h
      split_ifs at h with hc
      cases h
      exact ⟨hc.2.2.1, hc.2.2.2.1⟩
    | processing t now h ih =>
      simpa [Task.set_processing] using ih
    | completed t fid now h ih =>
      have hr : (t.set_completed fid now).retry_count = t.retry_count := by
        unfold Task.set_completed
        cases t.started_at <;> rfl
      rw [hr]; exact ih
    | failed t code details now h ih =>
      simpa [Task.set_failed] using ih
  · intro t
    simp [Task.can_retry, and_comm]

/-- **C7** witness: the invariant applied to the concrete task built by
`Task.construct` with `retry_count = 2`. -/
theorem c7_retry_count_witness :
    0 ≤ (⟨TaskStatus.created, DocumentFormat.markdown, DocumentFormat.pdf,
          none, 0, "Task created", none, none, none, none, none, 2⟩ :
          Task).retry_count ∧
    (⟨TaskStatus.created, DocumentFormat.markdown, DocumentFormat.pdf,
      none, 0, "Task created", none, none, none, none, none, 2⟩ :
      Task).retry_count ≤ 3 :=
  c7_retry_count_bounds_and_can_retry.1 _
    (Task.Reachable.constructed TaskStatus.created DocumentFormat.markdown
      DocumentFormat.pdf none 0 "Task created" none none none none none 2 _
      (by decide))

/-- **C8** (confirmed): `quick_format_check` rejects a claimed PDF whose
first 1 KB does not start with the `%PDF` signature; rejects a claimed
text-like file (HTML/HTM/MARKDOWN/MD) whose first 1 KB contains a null
byte or decodes under neither UTF-8 nor Latin-1; and on an I/O failure
while reading an existing file it passes optimistically. -/
theorem c8_quick_format_check :
    (∀ (fileExists : Bool) (bytes : List Nat),
      FileValidator.bytesStartWith (bytes.take 1024)
        FileValidator.pdfSignature = false →
      (FileValidator.quick_format_check fileExists (some bytes)
        DocumentFormat.pdf).1 = false) ∧
    (∀ (fileExists : Bool) (bytes : List Nat) (fmt : DocumentFormat),
      (fmt = DocumentFormat.html ∨ fmt = DocumentFormat.htm ∨
       fmt = DocumentFormat.markdown ∨ fmt = DocumentFormat.md) →
      ((bytes.take 1024).contains 0 = true ∨
        (FileValidator.utf8Decodable (bytes.take 1024) = false ∧
         FileValidator.latin1Decodable (bytes.take 1024) = false)) →
      (FileValidator.quick_format_check fileExists (some bytes) fmt).1 =
        false) ∧
    (∀ fmt : DocumentFormat,
      FileValidator.quick_format_check true none fmt = (true, none)) := by
  refine ⟨?_, ?_, fun fmt => rfl⟩
  · intro fileExists bytes h
    cases fileExists
    · rfl
    · simp [FileValidator.quick_format_check, h]
  · intro fileExists bytes fmt hf h
    cases fileExists
    · rfl
    · rcases hf with rfl | rfl | rfl | rfl <;>
        rcases h with h | ⟨h1, h2⟩ <;>
        cases hc : (bytes.take 1024).contains 0 <;>
        simp_all [FileValidator.quick_format_check]

/-- **C8** witness: the PDF clause at a concrete non-PDF header, and the
text clause at a concrete header containing a null byte. -/
theorem c8_quick_format_check_witness :
    (FileValidator.quick_format_check true (some [1, 2, 3])
      DocumentFormat.pdf).1 = false ∧
    (FileValidator.quick_format_check true (some [0, 65])
      DocumentFormat.markdown).1 = false :=
  ⟨c8_quick_format_check.1 true [1, 2, 3] (by decide),
   c8_quick_format_check.2.1 true [0, 65] DocumentFormat.markdown
     (Or.inr (Or.inr (Or.inl rfl))) (Or.inl (by decide))⟩

/-- **C9** (confirmed): `validate_url` returns invalid (as a value, never
by raising) for every URL over 2048 characters, every URL whose parse
raises, every URL whose parsed scheme is neither `http` nor `https`, every
URL whose parsed hostname is one of the four blocked literals, and every
URL whose parsed hostname is an IP literal that is private, reserved or
loopback; and it accepts the domain-name URL
`https://example.com/path?q=1` without further resolution. -/
theorem c9_validate_url_rejections_and_acceptance :
    (∀ url : String, 2048 < url.length →
      (URLValidator.validate_url url).1 = false) ∧
    (∀ url : String, PyUrl.urlsplit url.data = none →
      (URLValidator.validate_url url).1 = false) ∧
    (∀ (url : String) (parsed : PyUrl.SplitUrl),
      PyUrl.urlsplit url.data = some parsed →
      String.mk parsed.scheme ≠ "http" → String.mk parsed.scheme ≠ "https" →
      (URLValidator.validate_url url).1 = false) ∧
    (∀ (url : String) (parsed : PyUrl.SplitUrl) (h : List Char),
      PyUrl.urlsplit url.data = some parsed →
      parsed.hostname = some h →
      String.mk h ∈ URLValidator.BLOCKED_DOMAINS →
      (URLValidator.validate_url url).1 = false) ∧
    (∀ (url : String) (parsed : PyUrl.SplitUrl) (h : List Char)
        (ip : PyIP.IPAddr),
      PyUrl.urlsplit url.data = some parsed →
      parsed.hostname = some h →
      PyIP.ip_address h = some ip →
      (ip.is_private || ip.is_reserved || ip.is_loopback) = true →
      (URLValidator.validate_url url).1 = false) ∧
    URLValidator.validate_url "https://example.com/path?q=1" = (true, none) := by
  refine ⟨?_, ?_, ?_, ?_, ?_, by decide⟩
  · intro url h
    by_cases h0 : url = ""
    · subst h0; simp at h
    · unfold URLValidator.validate_url
      rw [if_neg h0, if_pos h]
  · intro url hparse
    by_cases h0 : url = ""
    · subst h0; rfl
    · by_cases h2 : 2048 < url.length
      · unfold URLValidator.validate_url
        rw [if_neg h0, if_pos h2]
      · simp [URLValidator.validate_url, h0, h2, hparse]
  · intro url parsed hparse hh1 hh2
    by_cases h0 : url = ""
    · subst h0; rfl
    · by_cases h2 : 2048 < url.length
      · unfold URLValidator.validate_url
        rw [if_neg h0, if_pos h2]
      · simp [URLValidator.validate_url, h0, h2, hparse,
          URLValidator.ALLOWED_SCHEMES, hh1, hh2]
  · intro url parsed h hparse hhost hblocked
    by_cases h0 : url = ""
    · subst h0; rfl
    · by_cases h2 : 2048 < url.length
      · unfold URLValidator.validate_url
        rw [if_neg h0, if_pos h2]
      · by_cases hsch : String.mk parsed.scheme ∈ URLValidator.ALLOWED_SCHEMES
        · simp [URLValidator.validate_url, h0, h2, hparse, hsch, hhost,
            hblocked]
        · simp [URLValidator.validate_url, h0, h2, hparse, hsch]
  · intro url parsed h ip hparse hhost hip hflags
    by_cases h0 : url = ""
    · subst h0; rfl
    · by_cases h2 : 2048 < url.length
      · unfold URLValidator.validate_url
        rw [if_neg h0, if_pos h2]
      · have hpriv : URLValidator._is_private_ip (String.mk h) = true := by
          unfold URLValidator._is_private_ip
          rw [show (String.mk h).data = h from rfl, hip]
          exact hflags
        by_cases hsch : String.mk parsed.scheme ∈ URLValidator.ALLOWED_SCHEMES
        · by_cases hbl : String.mk h ∈ URLValidator.BLOCKED_DOMAINS
          · simp [URLValidator.validate_url, h0, h2, hparse, hsch, hhost, hbl]
          · simp [URLValidator.validate_url, h0, h2, hparse, hsch, hhost,
              hbl, hpriv]
        · simp [URLValidator.validate_url, h0, h2, hparse, hsch]

/-- **C9** witness: the scheme clause applied at the concrete URL
`ftp://x`, whose parsed scheme is `ftp`. -/
theorem c9_validate_url_witness :
    (URLValidator.validate_url "ftp://x").1 = false :=
  c9_validate_url_rejections_and_acceptance.2.2.1 "ftp://x"
    ⟨['f', 't', 'p'], some ['x']⟩ (by decide) (by decide) (by decide)

/-- **C10** (confirmed): passing `max_size = 0` disables the size check:
for every non-empty text with no null byte the validator accepts, exactly
as when `max_size` is omitted (`None`) — `0` is falsy in the `if
max_size:` test. -/
theorem c10_zero_max_size_disables_check :
    ∀ text : String, text ≠ "" →
      Char.ofNat 0 ∉ text.data →
      TextValidator.validate_text_input text (some 0) = (true, none) ∧
      TextValidator.validate_text_input text none =
        TextValidator.validate_text_input text (some 0) := by
  intro t h1 h2
  constructor <;> simp [TextValidator.validate_text_input, h1, h2]

/-- **C10** witness: applied at the concrete text `"hello"`. -/
theorem c10_zero_max_size_witness :
    TextValidator.validate_text_input "hello" (some 0) = (true, none) ∧
    TextValidator.validate_text_input "hello" none =
      TextValidator.validate_text_input "hello" (some 0) :=
  c10_zero_max_size_disables_check "hello" (by decide) (by decide)

end Doctor
